import Mathlib

/-!
Shallow embedding of the semantic-matching core of the repository
(`src/matcher.py`, `src/data_models.py`) together with proofs about it.

Modelling conventions:
* Python strings are modelled as `List Char` (ASCII scope: `str.lower`,
  `\w`, `\s` and `str.strip` are modelled on their ASCII behaviour).
* Python floats are modelled as exact rationals `ℚ`.
* The external embedding pipeline (`SentenceTransformer.encode` followed by
  `sklearn.cosine_similarity`) is abstracted as an oracle mapping the two
  texts of each call site to the cosine similarity of their embeddings.
  A genuine cosine lies in `[-1, 1]`; the oracle is a parameter so that
  statements quantify over provider behaviour.
* Python's `list.sort(key=..., reverse=True)` (Timsort: stable, here
  descending by key) is modelled by Mathlib's stable `List.insertionSort`
  with the relation "left key is at least right key".
-/

namespace REMatcher

/-- Python strings, modelled as lists of characters. -/
abbrev Str := List Char

/-- Model of the ASCII part of the regex class `\w`: letters, digits and
underscore. -/
def isWordChar (c : Char) : Bool := c.isAlphanum || c == '_'

/-- Model of the ASCII part of the regex class `\s` / Python whitespace:
space, tab, newline, carriage return, vertical tab, form feed. -/
def isSpaceChar (c : Char) : Bool :=
  c == ' ' || c == '\t' || c == '\n' || c == '\r' || c == '\x0b' || c == '\x0c'

/-- Replace every maximal run of characters satisfying `p` by a single
space. Models `re.sub` of one-or-more `p`-characters with a single space
(the second substitution in `_preprocess_text`). -/
def collapseWs (p : Char → Bool) : List Char → List Char
  | [] => []
  | [c] => if p c then [' '] else [c]
  | c :: d :: cs =>
    if p c && p d then collapseWs p (d :: cs)
    else (if p c then ' ' else c) :: collapseWs p (d :: cs)

/-- Model of Python `str.strip()`: remove leading and trailing whitespace. -/
def stripWs (l : Str) : Str :=
  ((l.dropWhile isSpaceChar).reverse.dropWhile isSpaceChar).reverse

/-- Model of `" ".join(xs)`. -/
def joinSpace (xs : List Str) : Str := List.intercalate [' '] xs

/-- Model of `SemanticMatcher._preprocess_text` (src/matcher.py lines 18-25):
empty-guard, lowercase, replace each character matching the regex class
of non-word non-space characters by a space, collapse whitespace runs to a
single space, strip. -/
def preprocess_text (text : Str) : Str :=
  if text = [] then []
  else
    let lowered := text.map Char.toLower
    let replaced := lowered.map (fun c => if !isWordChar c && !isSpaceChar c then ' ' else c)
    stripWs (collapseWs isSpaceChar replaced)

/-- Model of calling `_preprocess_text` with a possibly-`None` argument:
the `if not text` guard maps `None` to the empty string. -/
def preprocess_text_opt (text : Option Str) : Str :=
  preprocess_text (text.getD [])

/-- Model of `len(set(a) & set(b))` for lists of strings: the number of
distinct elements of `a` that also occur in `b`. -/
def interCard (a b : List Str) : ℕ :=
  (a.dedup.filter (fun x => decide (x ∈ b))).length

/-- Model of `np.mean` on a list of rationals: sum divided by length.
(For the empty list `np.mean` yields NaN while this model yields `0`;
theorems about means are therefore stated only for non-empty slices.) -/
def mean (l : List ℚ) : ℚ := l.sum / (l.length : ℚ)

/-- Funding stage enum (src/data_models.py lines 6-12). -/
inductive FundingStage
  | seed
  | series_a
  | series_b
  | series_c
  | yc
  | other
deriving DecidableEq

/-- The `str` value of each `FundingStage` member. -/
def FundingStage.value : FundingStage → Str
  | .seed => ['S', 'e', 'e', 'd']
  | .series_a => ['S', 'e', 'r', 'i', 'e', 's', ' ', 'A']
  | .series_b => ['S', 'e', 'r', 'i', 'e', 's', ' ', 'B']
  | .series_c => ['S', 'e', 'r', 'i', 'e', 's', ' ', 'C']
  | .yc => ['Y', ' ', 'C', 'o', 'm', 'b', 'i', 'n', 'a', 't', 'o', 'r']
  | .other => ['O', 't', 'h', 'e', 'r']

/-- Model of `Project` (src/data_models.py lines 15-21). -/
structure Project where
  name : Str
  description : Str
  tech_stack : List Str
  outcomes : List Str
  duration : Option Str
  role : Option Str
deriving DecidableEq

/-- Model of `UserProfile` (src/data_models.py lines 24-32). -/
structure UserProfile where
  name : Str
  title : Str
  email : Str
  projects : List Project
  skills : List Str
  experience : Str
  linkedin : Option Str
  github : Option Str
deriving DecidableEq

/-- Model of `Startup` (src/data_models.py lines 35-47). -/
structure Startup where
  company_name : Str
  mission : Str
  product : Str
  tech_stack : List Str
  team_size : Option Int
  funding_stage : Option FundingStage
  website : Option Str
  contact_email : Option Str
  contact_name : Option Str
  location : Option Str
  industry : Option Str
  description : Option Str
deriving DecidableEq

/-- Model of `MatchRationale` (src/data_models.py lines 50-55). -/
structure MatchRationale where
  tech_stack_alignment : ℚ
  domain_alignment : ℚ
  project_relevance : ℚ
  overall_score : ℚ
  reasoning : List Str
deriving DecidableEq

/-- Model of `EmailMatch` (src/data_models.py lines 58-67). -/
structure EmailMatch where
  company_name : Str
  contact_email : Option Str
  contact_name : Option Str
  relevant_projects : List Str
  rationale : MatchRationale
  email_body : Str
  subject_line : Str
  match_score : ℚ
  auto_send : Bool
deriving DecidableEq

/-- Model of `MatchingConfig` (src/data_models.py lines 88-95). -/
structure MatchingConfig where
  min_score_threshold : ℚ
  max_matches_per_company : ℕ
  include_tech_stack_weight : ℚ
  include_domain_weight : ℚ
  include_project_weight : ℚ
  email_tone : Str
  email_length : Str
deriving DecidableEq

/-- The pydantic defaults of `MatchingConfig` (src/data_models.py lines 89-95). -/
def MatchingConfig.default : MatchingConfig where
  min_score_threshold := 3/5
  max_matches_per_company := 3
  include_tech_stack_weight := 2/5
  include_domain_weight := 3/10
  include_project_weight := 3/10
  email_tone := ['c', 'o', 'n', 'f', 'i', 'd', 'e', 'n', 't']
  email_length := ['c', 'o', 'n', 'c', 'i', 's', 'e']

/-- The error the spec assigns to invalid `MatchingConfig` values. No such
type exists anywhere in the repository source. -/
inductive InvalidConfig
  | mk
deriving DecidableEq

/-- Model of constructing a `MatchingConfig` (src/data_models.py lines
88-95). The source class is a plain pydantic `BaseModel` with no
validators: given well-typed field values, construction always succeeds and
stores the fields verbatim; the source contains no weight-sum or
threshold-range check. The `Except` result type marks where such a
validation error would surface if it existed. -/
def mk_matching_config (thr : ℚ) (k : ℕ) (w_tech w_domain w_project : ℚ)
    (tone length_ : Str) : Except InvalidConfig MatchingConfig :=
  .ok ⟨thr, k, w_tech, w_domain, w_project, tone, length_⟩

/-- The embedding pipeline abstracted as an oracle: `sim a b` is the value
`cosine_similarity([embed(a)], [embed(b)])[0][0]` the external model
produces for texts `a` and `b`. -/
abbrev SimOracle := Str → Str → ℚ

/-- Model of Python `min(a, b)` on two floats. -/
def pymin (a b : ℚ) : ℚ := if a ≤ b then a else b

/-- Model of Python `max(a, b)` on two floats. -/
def pymax (a b : ℚ) : ℚ := if a ≤ b then b else a

/-- Model of `SemanticMatcher._extract_tech_stack_similarity`
(src/matcher.py lines 27-53): empty-guard, normalise both tag lists,
exact-overlap count over sets divided by the larger list length, then blend
`0.7 * exact + 0.3 * semantic` and clamp above at `1.0`. The inner
positive-length test of the source (always true once the guard has passed)
is kept. -/
def extract_tech_stack_similarity (sim : SimOracle) (user_tech startup_tech : List Str) : ℚ :=
  if user_tech = [] ∨ startup_tech = [] then 0
  else
    let user_tech_normalized := user_tech.map preprocess_text
    let startup_tech_normalized := startup_tech.map preprocess_text
    let exact_matches := interCard user_tech_normalized startup_tech_normalized
    let exact_score : ℚ :=
      (exact_matches : ℚ) /
        ((Nat.max user_tech_normalized.length startup_tech_normalized.length : ℕ) : ℚ)
    if 0 < user_tech_normalized.length ∧ 0 < startup_tech_normalized.length then
      let user_tech_text := joinSpace user_tech_normalized
      let startup_tech_text := joinSpace startup_tech_normalized
      let semantic_score := sim user_tech_text startup_tech_text
      let combined_score := 7/10 * exact_score + 3/10 * semantic_score
      pymin combined_score 1
    else exact_score

/-- The candidate-side domain text of `_extract_domain_similarity`
(src/matcher.py lines 58-60): the f-string concatenation accumulated over
the profile's projects. -/
def user_domain_text (p : UserProfile) : Str :=
  p.projects.foldl
    (fun acc project => acc ++ ' ' :: project.description ++ ' ' :: joinSpace project.outcomes) []

/-- The entity-side domain text of `_extract_domain_similarity`
(src/matcher.py line 63): mission, product, and optional description. -/
def startup_domain_text (st : Startup) : Str :=
  st.mission ++ ' ' :: st.product ++ ' ' :: st.description.getD []

/-- Model of `SemanticMatcher._extract_domain_similarity` (src/matcher.py
lines 55-75): short-circuit to `0.0` when either raw concatenated text
strips to empty, otherwise the similarity of the two preprocessed texts
clamped below at `0.0`. -/
def extract_domain_similarity (sim : SimOracle) (p : UserProfile) (st : Startup) : ℚ :=
  let u := user_domain_text p
  let s := startup_domain_text st
  if stripWs u = [] ∨ stripWs s = [] then 0
  else pymax 0 (sim (preprocess_text u) (preprocess_text s))

/-- The per-project text of `_extract_project_relevance` (src/matcher.py
line 86). -/
def project_text (project : Project) : Str :=
  project.name ++ ' ' :: project.description ++ ' ' ::
    joinSpace project.tech_stack ++ ' ' :: joinSpace project.outcomes

/-- The startup text of `_extract_project_relevance` (src/matcher.py
line 89). -/
def startup_text_for_project (st : Startup) : Str :=
  st.mission ++ ' ' :: st.product ++ ' ' :: joinSpace st.tech_stack

/-- The `(name, similarity)` pairs accumulated by the loop of
`_extract_project_relevance` (src/matcher.py lines 82-98), in project
order. -/
def project_scores (sim : SimOracle) (p : UserProfile) (st : Startup) : List (Str × ℚ) :=
  p.projects.map (fun project =>
    (project.name,
      sim (preprocess_text (project_text project))
          (preprocess_text (startup_text_for_project st))))

/-- The sort key relation of `project_scores.sort(key=lambda x: x[1],
reverse=True)`: left similarity at least right similarity. -/
def simGE (a b : Str × ℚ) : Prop := b.2 ≤ a.2

instance : DecidableRel simGE :=
  fun a b => inferInstanceAs (Decidable (b.2 ≤ a.2))

instance : IsTotal (Str × ℚ) simGE :=
  ⟨fun a b => le_total b.2 a.2⟩

instance : IsTrans (Str × ℚ) simGE :=
  ⟨fun _ _ _ h1 h2 => le_trans h2 h1⟩

/-- The scored projects of one `(profile, startup)` pair, sorted stably in
descending order of similarity (src/matcher.py line 101). -/
def sorted_project_scores (sim : SimOracle) (p : UserProfile) (st : Startup) : List (Str × ℚ) :=
  List.insertionSort simGE (project_scores sim p st)

/-- The slice `project_scores[:max_matches_per_company]` of the sorted
scored projects (src/matcher.py lines 104-105). -/
def top_project_scores (sim : SimOracle) (cfg : MatchingConfig) (p : UserProfile) (st : Startup) :
    List (Str × ℚ) :=
  (sorted_project_scores sim p st).take cfg.max_matches_per_company

/-- Model of `SemanticMatcher._extract_project_relevance` (src/matcher.py
lines 77-107): empty-guard, score each project, sort stably descending,
take the top `max_matches_per_company`, report the names of top entries
scoring strictly above `0.3`, and average the top similarities. -/
def extract_project_relevance (sim : SimOracle) (cfg : MatchingConfig) (p : UserProfile)
    (st : Startup) : ℚ × List Str :=
  if p.projects = [] then (0, [])
  else
    let top := top_project_scores sim cfg p st
    let top_projects := (top.filter (fun x => decide ((3 : ℚ)/10 < x.2))).map Prod.fst
    let avg_score := mean (top.map Prod.snd)
    (avg_score, top_projects)

/-- Model of `" ".lower()` applied elementwise, used by
`_generate_rationale`. -/
def lowerStr (s : Str) : Str := s.map Char.toLower

/-- Decimal digits of a natural number, used to model Python f-string
interpolation of an int. -/
def natToStr (n : ℕ) : Str := (toString n).data

/-- Model of `SemanticMatcher._generate_rationale` (src/matcher.py lines
109-143). The source's `tech_overlap` comprehension intersects the set of
lowercased startup tags with itself (a source quirk kept verbatim here), so
it is the number of distinct lowercased startup tags. -/
def generate_rationale (tech_score domain_score _project_score : ℚ)
    (relevant_projects : List Str) (st : Startup) : List Str :=
  let tech_msgs : List Str :=
    if 1/2 < tech_score then
      let tech_overlap := interCard (st.tech_stack.map lowerStr) (st.tech_stack.map lowerStr)
      if 0 < tech_overlap then
        [('T' :: "ech stack alignment: ".data) ++ natToStr tech_overlap ++ " matching technologies".data]
      else
        [('S' :: "trong technical foundation with relevant technologies".data)]
    else []
  let domain_msgs : List Str :=
    if 3/5 < domain_score then [('D' :: "omain expertise aligns with company mission".data)]
    else if 2/5 < domain_score then [('R' :: "elevant experience in similar problem spaces".data)]
    else []
  let project_msgs : List Str :=
    match relevant_projects with
    | [] => []
    | [p0] => [('D' :: "irect project relevance: ".data) ++ p0]
    | ps =>
      let sep := (',' :: [' '])
      [('M' :: "ultiple relevant projects: ".data) ++ List.intercalate sep (ps.take 2)]
  let stage_msgs : List Str :=
    match st.funding_stage with
    | some fs => [('E' :: "xperience with ".data) ++ fs.value ++ " stage companies".data]
    | none => []
  let team_msgs : List Str :=
    match st.team_size with
    | some n => if n ≠ 0 ∧ n < 50 then [('E' :: "xperience in early-stage, fast-paced environments".data)] else []
    | none => []
  tech_msgs ++ domain_msgs ++ project_msgs ++ stage_msgs ++ team_msgs

/-- Model of `SemanticMatcher.calculate_match_score` (src/matcher.py lines
145-174): tech score over the concatenation of all project tags and the
profile skills, domain score, project relevance, the weighted overall
score, and the rationale record. Returns
`(overall_score, rationale, relevant_projects)`. -/
def calculate_match_score (sim : SimOracle) (cfg : MatchingConfig) (p : UserProfile)
    (st : Startup) : ℚ × MatchRationale × List Str :=
  let tech_score := extract_tech_stack_similarity sim
    ((p.projects.map Project.tech_stack).flatten ++ p.skills) st.tech_stack
  let domain_score := extract_domain_similarity sim p st
  let pr := extract_project_relevance sim cfg p st
  let overall_score :=
    cfg.include_tech_stack_weight * tech_score +
    cfg.include_domain_weight * domain_score +
    cfg.include_project_weight * pr.1
  let rationale_points := generate_rationale tech_score domain_score pr.1 pr.2 st
  (overall_score,
   ⟨tech_score, domain_score, pr.1, overall_score, rationale_points⟩,
   pr.2)

/-- The `EmailMatch` record built inside the loop of `find_matches`
(src/matcher.py lines 184-194): email body and subject are left empty and
`auto_send` is `False`. -/
def build_match (st : Startup) (relevant_projects : List Str) (rationale : MatchRationale)
    (score : ℚ) : EmailMatch where
  company_name := st.company_name
  contact_email := st.contact_email
  contact_name := st.contact_name
  relevant_projects := relevant_projects
  rationale := rationale
  email_body := []
  subject_line := []
  match_score := score
  auto_send := false

/-- The list `matches` of `find_matches` before sorting (src/matcher.py
lines 178-195): one `EmailMatch` per startup whose overall score reaches
the threshold, in input order. -/
def candidate_matches (sim : SimOracle) (cfg : MatchingConfig) (p : UserProfile) :
    List Startup → List EmailMatch
  | [] => []
  | st :: rest =>
    let r := calculate_match_score sim cfg p st
    (if cfg.min_score_threshold ≤ r.1 then [build_match st r.2.2 r.2.1 r.1] else []) ++
      candidate_matches sim cfg p rest

/-- The sort key relation of `matches.sort(key=lambda x: x.match_score,
reverse=True)`: left match score at least right match score. -/
def scoreGE (a b : EmailMatch) : Prop := b.match_score ≤ a.match_score

instance : DecidableRel scoreGE :=
  fun a b => inferInstanceAs (Decidable (b.match_score ≤ a.match_score))

instance : IsTotal EmailMatch scoreGE :=
  ⟨fun a b => le_total b.match_score a.match_score⟩

instance : IsTrans EmailMatch scoreGE :=
  ⟨fun _ _ _ h1 h2 => le_trans h2 h1⟩

/-- Model of `SemanticMatcher.find_matches` (src/matcher.py lines 176-200):
score every startup, keep those reaching the threshold, and sort stably in
descending order of match score. -/
def find_matches (sim : SimOracle) (cfg : MatchingConfig) (p : UserProfile)
    (startups : List Startup) : List EmailMatch :=
  List.insertionSort scoreGE (candidate_matches sim cfg p startups)

/-- The failure mode of the embedding provider described by the spec:
the provider cannot produce embeddings. -/
inductive ModelUnavailable
  | mk
deriving DecidableEq

/-- The embedding pipeline as a fallible oracle: each `model.encode` call
site (paired with its cosine computation) may fail with
`ModelUnavailable` instead of returning a similarity. -/
abbrev SimOracleE := Str → Str → Except ModelUnavailable ℚ

/-- `extract_tech_stack_similarity` with the embedding call threaded
through `Except`. The source (src/matcher.py lines 27-53) contains no
`try`/`except`, so a provider failure is not caught here. -/
def extract_tech_stack_similarityE (sim : SimOracleE) (user_tech startup_tech : List Str) :
    Except ModelUnavailable ℚ :=
  if user_tech = [] ∨ startup_tech = [] then .ok 0
  else
    let user_tech_normalized := user_tech.map preprocess_text
    let startup_tech_normalized := startup_tech.map preprocess_text
    let exact_matches := interCard user_tech_normalized startup_tech_normalized
    let exact_score : ℚ :=
      (exact_matches : ℚ) /
        ((Nat.max user_tech_normalized.length startup_tech_normalized.length : ℕ) : ℚ)
    if 0 < user_tech_normalized.length ∧ 0 < startup_tech_normalized.length then do
      let semantic_score ← sim (joinSpace user_tech_normalized) (joinSpace startup_tech_normalized)
      pure (pymin (7/10 * exact_score + 3/10 * semantic_score) 1)
    else .ok exact_score

/-- `extract_domain_similarity` with the embedding call threaded through
`Except`. The source (src/matcher.py lines 55-75) contains no
`try`/`except`, so a provider failure is not caught here. -/
def extract_domain_similarityE (sim : SimOracleE) (p : UserProfile) (st : Startup) :
    Except ModelUnavailable ℚ :=
  let u := user_domain_text p
  let s := startup_domain_text st
  if stripWs u = [] ∨ stripWs s = [] then .ok 0
  else do
    let similarity ← sim (preprocess_text u) (preprocess_text s)
    pure (pymax 0 similarity)

/-- The scoring loop of `_extract_project_relevance` with each embedding
call threaded through `Except`, in project order. -/
def project_scoresE (sim : SimOracleE) (st : Startup) :
    List Project → Except ModelUnavailable (List (Str × ℚ))
  | [] => .ok []
  | project :: rest => do
    let s ← sim (preprocess_text (project_text project))
                (preprocess_text (startup_text_for_project st))
    let tail ← project_scoresE sim st rest
    pure ((project.name, s) :: tail)

/-- `extract_project_relevance` with the embedding calls threaded through
`Except`. The source (src/matcher.py lines 77-107) contains no
`try`/`except`, so a provider failure is not caught here. -/
def extract_project_relevanceE (sim : SimOracleE) (cfg : MatchingConfig) (p : UserProfile)
    (st : Startup) : Except ModelUnavailable (ℚ × List Str) :=
  if p.projects = [] then .ok (0, [])
  else do
    let scored ← project_scoresE sim st p.projects
    let top := (List.insertionSort simGE scored).take cfg.max_matches_per_company
    let top_projects := (top.filter (fun x => decide ((3 : ℚ)/10 < x.2))).map Prod.fst
    pure (mean (top.map Prod.snd), top_projects)

/-- `calculate_match_score` with the embedding calls threaded through
`Except`, in the source's evaluation order: tech, then domain, then
project relevance (src/matcher.py lines 145-174). -/
def calculate_match_scoreE (sim : SimOracleE) (cfg : MatchingConfig) (p : UserProfile)
    (st : Startup) : Except ModelUnavailable (ℚ × MatchRationale × List Str) := do
  let tech_score ← extract_tech_stack_similarityE sim
    ((p.projects.map Project.tech_stack).flatten ++ p.skills) st.tech_stack
  let domain_score ← extract_domain_similarityE sim p st
  let pr ← extract_project_relevanceE sim cfg p st
  let overall_score :=
    cfg.include_tech_stack_weight * tech_score +
    cfg.include_domain_weight * domain_score +
    cfg.include_project_weight * pr.1
  pure (overall_score,
    ⟨tech_score, domain_score, pr.1, overall_score,
      generate_rationale tech_score domain_score pr.1 pr.2 st⟩,
    pr.2)

/-- The match-collection loop of `find_matches` with the embedding calls
threaded through `Except` (src/matcher.py lines 178-195). -/
def candidate_matchesE (sim : SimOracleE) (cfg : MatchingConfig) (p : UserProfile) :
    List Startup → Except ModelUnavailable (List EmailMatch)
  | [] => .ok []
  | st :: rest => do
    let r ← calculate_match_scoreE sim cfg p st
    let ms ← candidate_matchesE sim cfg p rest
    pure ((if cfg.min_score_threshold ≤ r.1 then [build_match st r.2.2 r.2.1 r.1] else []) ++ ms)

/-- `find_matches` with the embedding calls threaded through `Except`: the
source catches nothing, so the result is either the full ranked list or
the provider's error (src/matcher.py lines 176-200). -/
def find_matchesE (sim : SimOracleE) (cfg : MatchingConfig) (p : UserProfile)
    (startups : List Startup) : Except ModelUnavailable (List EmailMatch) := do
  let ms ← candidate_matchesE sim cfg p startups
  pure (List.insertionSort scoreGE ms)

/-- Clamp a rational into `[0, 1]`. -/
def clamp01 (x : ℚ) : ℚ := pymin (pymax x 0) 1

/-- Spec-side `set_overlap` over sets of strings (spec §4.3): the number of
common elements divided by the size of the larger set, `0` if either set is
empty. The sets are modelled by deduplicated lists. -/
def set_overlap (a b : List Str) : ℚ :=
  if a.dedup = [] ∨ b.dedup = [] then 0
  else (interCard a b : ℚ) / ((Nat.max a.dedup.length b.dedup.length : ℕ) : ℚ)

/-- Spec-side tech-stack score written from the words of the claim: `0.7 *
set_overlap(normalized_a, normalized_b) + 0.3 * cosine(embed(joined_a),
embed(joined_b))` clamped to `[0, 1]`, `0.0` when either side is empty.
Defined only for comparison with `extract_tech_stack_similarity`. -/
def spec_tech_score (sim : SimOracle) (a b : List Str) : ℚ :=
  if a = [] ∨ b = [] then 0
  else
    let an := a.map preprocess_text
    let bn := b.map preprocess_text
    clamp01 (7/10 * set_overlap an bn + 3/10 * sim (joinSpace an) (joinSpace bn))

/-- The tech-stack formula the code actually computes, written in the
amended claim's terms: on non-empty inputs, `0.7` times the set-overlap
count divided by the larger *list* length, plus `0.3` times the semantic
similarity, clamped *above* at `1.0` only. Defined for comparison with
`extract_tech_stack_similarity`. -/
def spec_tech_score_amended (sim : SimOracle) (a b : List Str) : ℚ :=
  if a = [] ∨ b = [] then 0
  else
    let an := a.map preprocess_text
    let bn := b.map preprocess_text
    pymin (7/10 * ((interCard an bn : ℚ) / ((Nat.max an.length bn.length : ℕ) : ℚ)) +
           3/10 * sim (joinSpace an) (joinSpace bn)) 1

/-- The normaliser written from the words of the original claim: lowercase,
replace every non-alphanumeric character (underscore included) by a single
space, collapse whitespace runs, trim. Defined only for comparison with
`preprocess_text`. -/
def claim_normalize (text : Str) : Str :=
  let lowered := text.map Char.toLower
  let replaced := lowered.map (fun c => if c.isAlphanum then c else ' ')
  stripWs (collapseWs (fun c => c == ' ') replaced)

/-- The normaliser written from the words of the amended claim: lowercase,
replace every character that is neither alphanumeric nor underscore by a
single space, collapse whitespace runs, trim. Defined for comparison with
`preprocess_text`. -/
def amended_normalize (text : Str) : Str :=
  let lowered := text.map Char.toLower
  let replaced := lowered.map (fun c => if isWordChar c then c else ' ')
  stripWs (collapseWs (fun c => c == ' ') replaced)

/-! ### Concrete fixtures used by counterexamples and witnesses -/

/-- An oracle returning similarity `0` for every pair of texts. -/
def simZero : SimOracle := fun _ _ => 0

/-- An oracle returning similarity `1/2` for every pair of texts. -/
def simHalf : SimOracle := fun _ _ => 1/2

/-- An oracle returning cosine `-1/10` for every pair of texts: a mildly
negative cosine, well inside the `[-1, 1]` range genuine sentence-embedding
cosines occupy. -/
def simNeg : SimOracle := fun _ _ => -1/10

/-- An oracle whose similarity depends on the first text's length. -/
def simLen : SimOracle := fun a _ => (a.length : ℚ) / 10

/-- A profile with no projects and no skills. -/
def profile_empty : UserProfile :=
  ⟨['u'], ['t'], ['e'], [], [], ['x'], none, none⟩

/-- A minimal startup with one technology tag. -/
def startup_plain : Startup :=
  ⟨['c'], ['m'], ['p'], [['t']], none, none, none, none, none, none, none, none⟩

/-- A config identical to the defaults except for a zero threshold. -/
def cfg_zero_threshold : MatchingConfig :=
  ⟨0, 3, 2/5, 3/10, 3/10, MatchingConfig.default.email_tone, MatchingConfig.default.email_length⟩

/-- A profile with a single project whose only tag is disjoint from
`startup_plain`'s tag. -/
def profile_one_project : UserProfile :=
  ⟨['u'], ['t'], ['e'],
   [⟨['n'], ['d'], [['h', 'a', 's', 'k']], [], none, none⟩],
   [], ['x'], none, none⟩

/-- A startup whose only tag is disjoint from `profile_one_project`'s. -/
def startup_disjoint : Startup :=
  ⟨['c'], ['m'], ['p'], [['c', 'o', 'b']], none, none, none, none, none, none, none, none⟩

/-- A profile whose single project description is punctuation-only: its
domain text survives `str.strip()` but normalises to the empty string. -/
def profile_punct : UserProfile :=
  ⟨['u'], ['t'], ['e'],
   [⟨['n'], ['!', '!', '!'], [], [], none, none⟩],
   [], ['x'], none, none⟩

/-- A profile with two projects of different name lengths, giving the
length-keyed oracle distinct similarities. -/
def profile_two_projects : UserProfile :=
  ⟨['u'], ['t'], ['e'],
   [⟨['a'], ['d'], [], [], none, none⟩,
    ⟨['b', 'b'], ['d'], [], [], none, none⟩],
   [], ['x'], none, none⟩

/-- First startup of the C4 scenario. -/
def startup_c4_one : Startup :=
  ⟨['c', '1'], ['m', '1'], ['p', '1'], [['t']], none, none, none, none, none, none, none, none⟩

/-- Second startup of the C4 scenario: the one whose domain-similarity
embedding call fails. -/
def startup_c4_two : Startup :=
  ⟨['c', '2'], ['m', '2'], ['p', '2'], [['t']], none, none, none, none, none, none, none, none⟩

/-- Third startup of the C4 scenario. -/
def startup_c4_three : Startup :=
  ⟨['c', '3'], ['m', '3'], ['p', '3'], [['t']], none, none, none, none, none, none, none, none⟩

/-- The second text of the one embedding call made to fail in the C4
scenario: the preprocessed domain text of `startup_c4_two`. -/
def failKey : Str := preprocess_text (startup_domain_text startup_c4_two)

/-- A fallible oracle that fails exactly on the domain-similarity call for
`startup_c4_two` and returns similarity `0` everywhere else. -/
def simFailDomain2 : SimOracleE := fun _ b =>
  if b = failKey then .error ModelUnavailable.mk else .ok 0

/-- The tech lists of the C5 counterexample: two tags of the candidate
normalise to the same string, so the set size (2) differs from the list
length (3). -/
def techs_dup : List Str := [['a'], ['A'], ['b']]

/-- The entity-side tech list of the C5 counterexample. -/
def techs_single : List Str := [['b']]

/-- The C9 counterexample input: an underscore between two letters. -/
def text_underscore : Str := ['a', '_', 'b']

/-! ### Helper lemmas -/

/-- Inserting an element into a list commutes with filtering by an exact
match-score value: the inserted element lands after every equal-scored
element already present, so it appends to the filtered prefix when its
score matches and leaves the filter unchanged otherwise. This is the core
of the stability argument for the descending sort of `find_matches`. -/
theorem filter_score_orderedInsert (a : EmailMatch) (l : List EmailMatch) (s : ℚ) :
    (List.orderedInsert scoreGE a l).filter (fun m => decide (m.match_score = s)) =
      if a.match_score = s then
        a :: l.filter (fun m => decide (m.match_score = s))
      else l.filter (fun m => decide (m.match_score = s)) := by
  induction l with
  | nil =>
    by_cases ha : a.match_score = s <;> simp [ha]
  | cons b t ih =>
    by_cases hab : scoreGE a b
    · by_cases ha : a.match_score = s <;>
        by_cases hb : b.match_score = s <;>
          simp [List.orderedInsert, hab, ha, hb]
    · have hlt : a.match_score < b.match_score := lt_of_not_le hab
      by_cases ha : a.match_score = s
      · have hb : ¬ b.match_score = s := by
          intro hbs
          exact absurd (hbs.trans ha.symm).le (not_le.mpr hlt)
        simp [List.orderedInsert, hab, ha, hb, ih]
      · by_cases hb : b.match_score = s <;>
          simp [List.orderedInsert, hab, ha, hb, ih]

/-- The stable insertion sort used to model `matches.sort(...)` preserves
the sublist of matches having any fixed score, in order. -/
theorem filter_score_insertionSort (l : List EmailMatch) (s : ℚ) :
    (List.insertionSort scoreGE l).filter (fun m => decide (m.match_score = s)) =
      l.filter (fun m => decide (m.match_score = s)) := by
  induction l with
  | nil => rfl
  | cons a t ih =>
    by_cases ha : a.match_score = s <;>
      simp [List.insertionSort, filter_score_orderedInsert, ha, ih]

/-- Every element of the pre-sort match list of `find_matches` is the
record built from some input startup whose overall score reached the
threshold. -/
theorem exists_build_of_mem_candidate {sim : SimOracle} {cfg : MatchingConfig}
    {p : UserProfile} {startups : List Startup} {m : EmailMatch}
    (h : m ∈ candidate_matches sim cfg p startups) :
    ∃ st ∈ startups, cfg.min_score_threshold ≤ (calculate_match_score sim cfg p st).1 ∧
      m = build_match st (calculate_match_score sim cfg p st).2.2
            (calculate_match_score sim cfg p st).2.1 (calculate_match_score sim cfg p st).1 := by
  induction startups with
  | nil => simp [candidate_matches] at h
  | cons st0 rest ih =>
    simp only [candidate_matches] at h
    rcases List.mem_append.mp h with h1 | h2
    · by_cases hc : cfg.min_score_threshold ≤ (calculate_match_score sim cfg p st0).1
      · rw [if_pos hc] at h1
        rcases List.mem_singleton.mp h1 with rfl
        exact ⟨st0, List.mem_cons_self _ _, hc, rfl⟩
      · rw [if_neg hc] at h1
        cases h1
    · rcases ih h2 with ⟨st, hmem, hle, heq⟩
      exact ⟨st, List.mem_cons_of_mem _ hmem, hle, heq⟩

/-- Conversely, every input startup reaching the threshold contributes its
match record to the pre-sort list of `find_matches`. -/
theorem mem_candidate_of_threshold {sim : SimOracle} {cfg : MatchingConfig}
    {p : UserProfile} {startups : List Startup} {st : Startup} (hst : st ∈ startups)
    (h : cfg.min_score_threshold ≤ (calculate_match_score sim cfg p st).1) :
    build_match st (calculate_match_score sim cfg p st).2.2
        (calculate_match_score sim cfg p st).2.1 (calculate_match_score sim cfg p st).1 ∈
      candidate_matches sim cfg p startups := by
  induction startups with
  | nil => cases hst
  | cons st0 rest ih =>
    simp only [candidate_matches]
    rcases List.mem_cons.mp hst with rfl | hmem
    · exact List.mem_append.mpr (Or.inl (by rw [if_pos h]; exact List.mem_singleton.mpr rfl))
    · exact List.mem_append.mpr (Or.inr (ih hmem))

/-- A word character (letter, digit or underscore) is never a whitespace
character. -/
theorem word_not_space (c : Char) (h : isWordChar c = true) : isSpaceChar c = false := by
  by_contra hs
  rw [Bool.not_eq_false, isSpaceChar] at hs
  simp only [Bool.or_eq_true, beq_iff_eq] at hs
  rcases hs with ((((rfl | rfl) | rfl) | rfl) | rfl) | rfl <;> exact absurd h (by decide)

/-- Two character-to-character maps that agree on where spaces appear, and
agree on the kept characters, collapse to the same text. -/
theorem collapse_pointwise (f g : Char → Char)
    (hcond : ∀ c, (g c == ' ') = isSpaceChar (f c))
    (hval : ∀ c, isSpaceChar (f c) = false → g c = f c) :
    ∀ l : List Char,
      collapseWs (fun c => c == ' ') (l.map g) = collapseWs isSpaceChar (l.map f) := by
  intro l
  induction l with
  | nil => rfl
  | cons c t ih =>
    cases t with
    | nil =>
      simp only [List.map_cons, List.map_nil, collapseWs]
      simp only [hcond]
      by_cases h2 : isSpaceChar (f c)
      · simp [h2]
      · have h2' : isSpaceChar (f c) = false := by simpa using h2
        simp [h2, hval c h2']
    | cons d u =>
      simp only [List.map_cons, collapseWs]
      simp only [List.map_cons] at ih
      simp only [hcond]
      by_cases h2 : isSpaceChar (f c)
      · by_cases h3 : isSpaceChar (f d) <;> simp [h2, h3, ih]
      · have h2' : isSpaceChar (f c) = false := by simpa using h2
        by_cases h3 : isSpaceChar (f d) <;> simp [h2, h3, ih, hval c h2']

/-- The character map of the amended claim announces a space exactly where
the source's replace-then-collapse pipeline sees a whitespace character. -/
theorem char_cond (c : Char) :
    ((if isWordChar c then c else ' ') == ' ') =
      isSpaceChar (if !isWordChar c && !isSpaceChar c then ' ' else c) := by
  by_cases hw : isWordChar c
  · rw [if_pos hw, if_neg (by rw [hw]; simp), word_not_space c hw, beq_eq_false_iff_ne]
    rintro rfl
    exact absurd hw (by decide)
  · have hw' : isWordChar c = false := by simpa using hw
    by_cases hs : isSpaceChar c
    · rw [if_neg hw, if_neg (by rw [hs]; simp), hs]
      simp
    · have hs' : isSpaceChar c = false := by simpa using hs
      rw [if_neg hw, if_pos (by rw [hw', hs']; rfl)]
      decide

/-- On characters the source pipeline keeps as non-whitespace, the amended
claim's map and the source's map agree. -/
theorem char_val (c : Char)
    (h : isSpaceChar (if !isWordChar c && !isSpaceChar c then ' ' else c) = false) :
    (if isWordChar c then c else ' ') = (if !isWordChar c && !isSpaceChar c then ' ' else c) := by
  by_cases hw : isWordChar c
  · rw [if_pos hw, if_neg (by rw [hw]; simp)]
  · have hw' : isWordChar c = false := by simpa using hw
    by_cases hs : isSpaceChar c
    · rw [if_neg (by rw [hs]; simp)] at h
      exact absurd h (by rw [hs]; simp)
    · have hs' : isSpaceChar c = false := by simpa using hs
      rw [if_pos (by rw [hw', hs']; rfl)] at h
      exact absurd h (by decide)

/-! ### Claim theorems -/

/-- C1. The claim states that for every profile/entity pair and valid
config the four scores of `calculate_match_score` lie in `[0, 1]`. The
code violates it: `_extract_tech_stack_similarity` clamps its blended
score only from above (`min(combined_score, 1.0)`), so a negative
embedding cosine — here `-0.1`, well inside the `[-1, 1]` range of genuine
cosines — with zero exact tag overlap yields `tech_score = -0.03 < 0`,
under the default (weight-sum-1, threshold-in-range) config. -/
theorem c1_tech_score_below_zero :
    (calculate_match_score simNeg MatchingConfig.default profile_one_project
        startup_disjoint).2.1.tech_stack_alignment = -3/100 ∧
    (calculate_match_score simNeg MatchingConfig.default profile_one_project
        startup_disjoint).2.1.tech_stack_alignment < 0 ∧
    MatchingConfig.default.include_tech_stack_weight +
      MatchingConfig.default.include_domain_weight +
      MatchingConfig.default.include_project_weight = 1 ∧
    0 ≤ MatchingConfig.default.min_score_threshold ∧
    MatchingConfig.default.min_score_threshold ≤ 1 := by
  with_unfolding_all decide

/-- C2. Every match returned by `find_matches` has an overall score at
least `min_score_threshold`, and every input startup whose overall score
reaches the threshold (equality included) contributes its match record to
the output, so only strictly-below-threshold entities are excluded. -/
theorem c2_threshold_filtering (sim : SimOracle) (cfg : MatchingConfig) (p : UserProfile)
    (startups : List Startup) :
    (∀ m ∈ find_matches sim cfg p startups, cfg.min_score_threshold ≤ m.match_score) ∧
    (∀ st ∈ startups, cfg.min_score_threshold ≤ (calculate_match_score sim cfg p st).1 →
      build_match st (calculate_match_score sim cfg p st).2.2
          (calculate_match_score sim cfg p st).2.1 (calculate_match_score sim cfg p st).1 ∈
        find_matches sim cfg p startups) := by
  constructor
  · intro m hm
    rw [find_matches, List.mem_insertionSort] at hm
    rcases exists_build_of_mem_candidate hm with ⟨st, _, hle, rfl⟩
    exact hle
  · intro st hst hle
    rw [find_matches, List.mem_insertionSort]
    exact mem_candidate_of_threshold hst hle

/-- C2 witness: with a zero threshold and an all-zero oracle, the single
startup scores exactly the threshold (`0`) and is included. -/
theorem c2_witness :
    build_match startup_plain
        (calculate_match_score simZero cfg_zero_threshold profile_empty startup_plain).2.2
        (calculate_match_score simZero cfg_zero_threshold profile_empty startup_plain).2.1
        (calculate_match_score simZero cfg_zero_threshold profile_empty startup_plain).1 ∈
      find_matches simZero cfg_zero_threshold profile_empty [startup_plain] :=
  (c2_threshold_filtering simZero cfg_zero_threshold profile_empty [startup_plain]).2
    startup_plain (by decide) (by with_unfolding_all decide)

/-- C3. The output of `find_matches` is sorted in descending order of
match score, and for every score value the sublist of output matches with
that score equals, in order, the sublist of the pre-sort candidate list
(which lists startups in input order) with that score: the sort is
stable. -/
theorem c3_sorted_stable (sim : SimOracle) (cfg : MatchingConfig) (p : UserProfile)
    (startups : List Startup) :
    List.Sorted scoreGE (find_matches sim cfg p startups) ∧
    ∀ s : ℚ, (find_matches sim cfg p startups).filter (fun m => decide (m.match_score = s)) =
      (candidate_matches sim cfg p startups).filter (fun m => decide (m.match_score = s)) :=
  ⟨List.sorted_insertionSort scoreGE (candidate_matches sim cfg p startups),
   fun s => filter_score_insertionSort (candidate_matches sim cfg p startups) s⟩

/-- C9 counterexample. The source normaliser keeps underscores (the regex
class `\w` contains `_`), so on `"a_b"` it differs from the claim's
"replace every non-alphanumeric character" normaliser. -/
theorem c9_underscore_cex :
    preprocess_text text_underscore ≠ claim_normalize text_underscore := by
  decide

/-- C9 amended. The normaliser never raises (it is a total function),
maps null and empty input to the empty string, and equals the amended
description: lowercase, replace every character that is neither
alphanumeric nor underscore by a single space, collapse whitespace runs,
trim. -/
theorem c9_amended_normalizer :
    preprocess_text_opt none = [] ∧ preprocess_text [] = [] ∧
    ∀ t : Str, preprocess_text t = amended_normalize t := by
  refine ⟨rfl, rfl, ?_⟩
  intro t
  by_cases ht : t = []
  · subst ht; rfl
  · rw [preprocess_text, if_neg ht, amended_normalize]
    exact congrArg stripWs
      (collapse_pointwise
        (fun c => if !isWordChar c && !isSpaceChar c then ' ' else c)
        (fun c => if isWordChar c then c else ' ')
        char_cond char_val (t.map Char.toLower)).symm

/-- C5 counterexample. The claim's formula divides the set-overlap count
by the larger *set* size; the source divides by the larger *list* length.
With duplicate-after-normalisation candidate tags (and a zero-similarity
oracle to isolate the overlap term) the two disagree: the code yields
`7/30`, the claimed formula `7/20`. -/
theorem c5_blend_cex :
    extract_tech_stack_similarity simZero techs_dup techs_single ≠
      spec_tech_score simZero techs_dup techs_single := by
  with_unfolding_all decide

/-- C5 amended. On non-empty inputs the tech score equals `0.7` times the
set-overlap count divided by the larger list length plus `0.3` times the
semantic similarity of the joined normalised tags, clamped above at `1.0`
only (no lower clamp); it is `0.0` when either side is empty. -/
theorem c5_amended_blend (sim : SimOracle) (a b : List Str) :
    extract_tech_stack_similarity sim a b = spec_tech_score_amended sim a b := by
  by_cases h : a = [] ∨ b = []
  · rw [extract_tech_stack_similarity, if_pos h, spec_tech_score_amended, if_pos h]
  · push_neg at h
    have ha : 0 < a.length := List.length_pos.mpr h.1
    have hb : 0 < b.length := List.length_pos.mpr h.2
    have hcond : ¬(a = [] ∨ b = []) := by push_neg; exact h
    simp only [extract_tech_stack_similarity, spec_tech_score_amended, if_neg hcond,
      List.length_map]
    rw [if_pos ⟨ha, hb⟩]

/-- C6. With no projects, `_extract_project_relevance` returns score `0`
and an empty list. With projects, the scored list is sorted stably in
descending order of similarity; the reported relevant projects are exactly
the names of the top `max_matches_per_company` entries whose similarity
strictly exceeds `0.3` (hence at most `max_matches_per_company` of them);
and (for a positive cap, where the top slice is non-empty and `np.mean` is
defined) the relevance score is the mean of the top similarities. -/
theorem c6_project_relevance (sim : SimOracle) (cfg : MatchingConfig) (p : UserProfile)
    (st : Startup) :
    (p.projects = [] → extract_project_relevance sim cfg p st = (0, [])) ∧
    (p.projects ≠ [] →
      List.Sorted simGE (sorted_project_scores sim p st) ∧
      (extract_project_relevance sim cfg p st).2 =
        ((top_project_scores sim cfg p st).filter
            (fun x => decide ((3 : ℚ)/10 < x.2))).map Prod.fst ∧
      (extract_project_relevance sim cfg p st).2.length ≤ cfg.max_matches_per_company ∧
      (1 ≤ cfg.max_matches_per_company →
        (extract_project_relevance sim cfg p st).1 =
          ((top_project_scores sim cfg p st).map Prod.snd).sum /
            ((((top_project_scores sim cfg p st).map Prod.snd).length : ℕ) : ℚ))) := by
  constructor
  · intro h
    rw [extract_project_relevance, if_pos h]
  · intro h
    refine ⟨List.sorted_insertionSort simGE (project_scores sim p st), ?_, ?_, ?_⟩
    · rw [extract_project_relevance, if_neg h]
    · rw [extract_project_relevance, if_neg h]
      calc (((top_project_scores sim cfg p st).filter
              (fun x => decide ((3 : ℚ)/10 < x.2))).map Prod.fst).length
          = ((top_project_scores sim cfg p st).filter
              (fun x => decide ((3 : ℚ)/10 < x.2))).length := List.length_map _ _
        _ ≤ (top_project_scores sim cfg p st).length := List.length_filter_le _ _
        _ ≤ cfg.max_matches_per_company := by
            rw [top_project_scores, List.length_take]
            exact min_le_left _ _
    · intro _
      simp only [extract_project_relevance, if_neg h, mean, List.length_map]

/-- C6 witness: two projects, the default cap of three, and a
length-keyed oracle. -/
theorem c6_witness :
    (extract_project_relevance simLen MatchingConfig.default profile_two_projects
        startup_plain).2 =
      ((top_project_scores simLen MatchingConfig.default profile_two_projects
          startup_plain).filter (fun x => decide ((3 : ℚ)/10 < x.2))).map Prod.fst ∧
    (extract_project_relevance simLen MatchingConfig.default profile_two_projects
        startup_plain).1 =
      ((top_project_scores simLen MatchingConfig.default profile_two_projects
          startup_plain).map Prod.snd).sum /
        ((((top_project_scores simLen MatchingConfig.default profile_two_projects
            startup_plain).map Prod.snd).length : ℕ) : ℚ) :=
  ⟨((c6_project_relevance simLen MatchingConfig.default profile_two_projects
      startup_plain).2 (by decide)).2.1,
   ((c6_project_relevance simLen MatchingConfig.default profile_two_projects
      startup_plain).2 (by decide)).2.2.2 (by decide)⟩

/-- C7 counterexample. The source short-circuits on the *raw* concatenated
texts (`if not user_domain_text.strip()`), before normalisation. A
punctuation-only project description survives that check yet normalises to
the empty string, and the score is then whatever the oracle returns for
the empty text (`1/2` here), not `0.0` as claimed. -/
theorem c7_normalized_empty_cex :
    preprocess_text (user_domain_text profile_punct) = [] ∧
    extract_domain_similarity simHalf profile_punct startup_plain = 1/2 ∧
    ((1 : ℚ)/2 ≠ 0) := by
  refine ⟨by decide, by with_unfolding_all decide, by with_unfolding_all decide⟩

/-- C7 amended. The domain score is `0.0` whenever either side's *raw*
concatenated text is empty or whitespace-only (the check happens before
punctuation removal). -/
theorem c7_amended_raw_empty (sim : SimOracle) (p : UserProfile) (st : Startup)
    (h : stripWs (user_domain_text p) = [] ∨ stripWs (startup_domain_text st) = []) :
    extract_domain_similarity sim p st = 0 := by
  rw [extract_domain_similarity, if_pos h]

/-- C7 witness: a profile with no projects has an empty candidate-side
domain text, so the score is `0`. -/
theorem c7_witness : extract_domain_similarity simZero profile_empty startup_plain = 0 :=
  c7_amended_raw_empty simZero profile_empty startup_plain (by decide)

/-- C8 counterexample. Constructing a `MatchingConfig` whose weights sum
to `2.7` and whose threshold is `5` succeeds: the pydantic model has no
validators, so no `InvalidConfig` is raised at construction time. -/
theorem c8_no_validation_cex :
    ((9 : ℚ)/10 + 9/10 + 9/10 ≠ 1) ∧ ¬ ((5 : ℚ) ≤ 1) ∧
    mk_matching_config 5 3 (9/10) (9/10) (9/10) [] [] =
      .ok ⟨5, 3, 9/10, 9/10, 9/10, [], []⟩ :=
  ⟨by with_unfolding_all decide, by with_unfolding_all decide, rfl⟩

/-- C8 amended. `MatchingConfig` construction performs no weight or
threshold validation: it always succeeds and stores the given field values
verbatim, so no `InvalidConfig` error is ever raised — neither at
construction time nor (having no inhabitant in any scoring code path)
mid-batch. -/
theorem c8_amended_no_validation (thr : ℚ) (k : ℕ) (w_tech w_domain w_project : ℚ)
    (tone length_ : Str) :
    mk_matching_config thr k w_tech w_domain w_project tone length_ =
      .ok ⟨thr, k, w_tech, w_domain, w_project, tone, length_⟩ :=
  rfl

/-- C10. Every match returned by `find_matches` has `auto_send = False`,
an empty email body and an empty subject line, whatever its score. -/
theorem c10_blank_fields (sim : SimOracle) (cfg : MatchingConfig) (p : UserProfile)
    (startups : List Startup) :
    ∀ m ∈ find_matches sim cfg p startups,
      m.auto_send = false ∧ m.email_body = [] ∧ m.subject_line = [] := by
  intro m hm
  rw [find_matches, List.mem_insertionSort] at hm
  rcases exists_build_of_mem_candidate hm with ⟨st, _, _, rfl⟩
  exact ⟨rfl, rfl, rfl⟩

/-- C10 witness: the single match produced in the zero-threshold scenario
has blank message fields and `auto_send = False`. -/
theorem c10_witness :
    (build_match startup_plain [] ⟨0, 0, 0, 0, []⟩ 0).auto_send = false ∧
    (build_match startup_plain [] ⟨0, 0, 0, 0, []⟩ 0).email_body = [] ∧
    (build_match startup_plain [] ⟨0, 0, 0, 0, []⟩ 0).subject_line = [] :=
  c10_blank_fields simZero cfg_zero_threshold profile_empty [startup_plain]
    (build_match startup_plain [] ⟨0, 0, 0, 0, []⟩ 0) (by with_unfolding_all decide)

/-- Every value of the error type is the same failure. -/
theorem modelUnavailable_eq (e : ModelUnavailable) : e = ModelUnavailable.mk := by
  cases e
  rfl

/-- C4 counterexample. The spec's scenario: three startups, the embedding
provider fails with `ModelUnavailable` on the domain-similarity call of
the second one. The source has no `try`/`except`, so the whole
`find_matches` pass aborts with the error instead of returning the other
two startups' scores with a zero domain score for the second. -/
theorem c4_propagation_cex :
    find_matchesE simFailDomain2 MatchingConfig.default profile_one_project
      [startup_c4_one, startup_c4_two, startup_c4_three] =
      .error ModelUnavailable.mk := by
  with_unfolding_all rfl

/-- C4 amended. If the embedding provider fails while computing any
component score of any entity in the batch, `find_matches` propagates the
`ModelUnavailable` error: the entire ranking pass aborts and no matches at
all are returned. -/
theorem c4_amended_propagation (sim : SimOracleE) (cfg : MatchingConfig) (p : UserProfile)
    (startups : List Startup)
    (h : ∃ st ∈ startups, ∃ e, calculate_match_scoreE sim cfg p st = .error e) :
    find_matchesE sim cfg p startups = .error ModelUnavailable.mk := by
  have key : ∀ l : List Startup,
      (∃ st ∈ l, ∃ e, calculate_match_scoreE sim cfg p st = .error e) →
      candidate_matchesE sim cfg p l = .error ModelUnavailable.mk := by
    intro l
    induction l with
    | nil =>
      rintro ⟨st, hst, _⟩
      cases hst
    | cons st0 rest ih =>
      rintro ⟨st, hst, e, he⟩
      rcases List.mem_cons.mp hst with rfl | hmem
      · rw [candidate_matchesE, he, modelUnavailable_eq e]
        rfl
      · cases hcalc : calculate_match_scoreE sim cfg p st0 with
        | error e0 =>
          rw [candidate_matchesE, hcalc, modelUnavailable_eq e0]
          rfl
        | ok r =>
          have hrest := ih ⟨st, hmem, e, he⟩
          rw [candidate_matchesE, hcalc]
          show (candidate_matchesE sim cfg p rest).bind _ = _
          rw [hrest]
          rfl
  rw [find_matchesE, key startups h]
  rfl

/-- C4 witness: the amended propagation applied to the concrete
three-startup scenario with the failing oracle. -/
theorem c4_witness :
    find_matchesE simFailDomain2 MatchingConfig.default profile_one_project
      [startup_c4_one, startup_c4_two, startup_c4_three] =
      .error ModelUnavailable.mk :=
  c4_amended_propagation simFailDomain2 MatchingConfig.default profile_one_project
    [startup_c4_one, startup_c4_two, startup_c4_three]
    ⟨startup_c4_two, by decide, ModelUnavailable.mk, by with_unfolding_all rfl⟩

end REMatcher
